import Mathlib

/-!
Verification of the Ambari fragment consisting of
`resource_management/core/logger.py` (redacting logger) and the Kerberos
helper `KERBEROS/package/scripts/kerberos_common.py`.

Strings are modelled as Lean `String` (a list of characters), Python byte
strings and unicode strings alike; file contents are byte lists
(`List Nat`).  The filesystem is a map from paths to optional contents;
subprocess execution (`shell.checked_call`, the `Execute` resource, the
`kinit` pipe) is an oracle parameter, and every operation additionally
returns the list of commands it executed.  Exceptions are `Except Unit`
(the Python message text is irrelevant to the properties checked here).
-/

/-! ## Python string primitives -/

/-- Python `str.replace` with an empty pattern: the replacement is inserted
before every character and once more at the end. -/
def replaceEmptyPat (rep : List Char) : List Char → List Char
  | [] => rep
  | c :: cs => rep ++ c :: replaceEmptyPat rep cs

/-- Python `str.replace` with a non-empty pattern: leftmost, non-overlapping
occurrences found in the original string are replaced; the scan continues
after each matched segment.  Structured with explicit fuel (one unit per
character consumed) so that it computes by kernel reduction; `pyReplace`
supplies `s.length`, which is always sufficient. -/
def replaceFuel (pat rep : List Char) : Nat → List Char → List Char
  | _, [] => []
  | 0, s => s
  | n + 1, c :: cs =>
    if pat.isPrefixOf (c :: cs) then
      rep ++ replaceFuel pat rep n (cs.drop (pat.length - 1))
    else
      c :: replaceFuel pat rep n cs

/-- Python `str.replace(pat, rep)` on character lists. -/
def pyReplace (s pat rep : List Char) : List Char :=
  if pat = [] then replaceEmptyPat rep s else replaceFuel pat rep s.length s

/-- Python `str.replace` on `String`. -/
def pyReplaceStr (s pat rep : String) : String :=
  String.mk (pyReplace s.data pat.data rep.data)

/-- Python `sub in s` (substring containment). -/
def strContains (s sub : String) : Bool :=
  decide (sub.data <:+: s.data)

/-! ## base64 (Python 2 `base64.b64encode` / `b64decode`)

`b64decode` delegates to `binascii.a2b_base64`, which first discards every
character that is neither in the base64 alphabet nor `=` (so newlines and
other junk are ignored), then decodes groups of four characters; incorrect
padding raises an error.  The model requires padding to occur only in the
final group, which is the case for every input exercised here. -/

def b64Alphabet : List Char :=
  "ABCDEFGHIJKLMNOPQRSTUVWXYZabcdefghijklmnopqrstuvwxyz0123456789+/".data

def b64Char (i : Nat) : Char := b64Alphabet.getD i '?'

def b64Idx (c : Char) : Option Nat := b64Alphabet.findIdx? (· == c)

def keepB64 (c : Char) : Bool := (b64Idx c).isSome || c == '='

/-- Python 2 `base64.b64encode` over bytes (each `< 256`). -/
def b64encode : List Nat → List Char
  | [] => []
  | [b1] => [b64Char (b1 / 4), b64Char (b1 % 4 * 16), '=', '=']
  | [b1, b2] => [b64Char (b1 / 4), b64Char (b1 % 4 * 16 + b2 / 16),
                 b64Char (b2 % 16 * 4), '=']
  | b1 :: b2 :: b3 :: rest =>
    b64Char (b1 / 4) :: b64Char (b1 % 4 * 16 + b2 / 16) ::
    b64Char (b2 % 16 * 4 + b3 / 64) :: b64Char (b3 % 64) ::
    b64encode rest

/-- Decoding of the already-filtered character stream, four characters at a
time; in a padded final quad the spare low bits are dropped, as in
`binascii`. -/
def decodeQuads : List Char → Except Unit (List Nat)
  | [] => .ok []
  | c1 :: c2 :: c3 :: c4 :: rest =>
    match b64Idx c1, b64Idx c2 with
    | some i1, some i2 =>
      if c3 = '=' then
        if c4 = '=' ∧ rest = [] then .ok [i1 * 4 + i2 / 16] else .error ()
      else
        match b64Idx c3 with
        | some i3 =>
          if c4 = '=' then
            if rest = [] then .ok [i1 * 4 + i2 / 16, i2 % 16 * 16 + i3 / 4]
            else .error ()
          else
            match b64Idx c4 with
            | some i4 =>
              (decodeQuads rest).map
                (fun bs => (i1 * 4 + i2 / 16) :: (i2 % 16 * 16 + i3 / 4) ::
                           (i3 % 4 * 64 + i4) :: bs)
            | none => .error ()
        | none => .error ()
    | _, _ => .error ()
  | _ => .error ()

/-- Python 2 `base64.b64decode`: discard foreign characters, then decode. -/
def b64decode (s : List Char) : Except Unit (List Nat) :=
  decodeQuads (s.filter keepB64)

/-! ## Filesystem model (contents only) -/

/-- A filesystem: each path maps to the file's bytes, or to nothing. -/
abbrev FS := String → Option (List Nat)

def emptyFS : FS := fun _ => none

def setFile (fs : FS) (p : String) (c : List Nat) : FS :=
  fun q => if q = p then some c else fs q

def removeFile (fs : FS) (p : String) : FS :=
  fun q => if q = p then none else fs q

/-! ## Redacting logger (`logger.py`) -/

/-- `Logger.filter_text`: replace every registered
unprotected-to-protected pair (the process-wide `sensitive_strings`
registry, in its iteration order), then strip every placeholder marker.
The placeholder set is Modelled from the spec: `PLACEHOLDERS_TO_STR` lives
in the companion `shell.py`, which is not among the reviewed sources; the
spec says only that its markers are removed, i.e. replaced by the empty
string, so the markers are a parameter here. -/
def filter_text (sensitive : List (String × String)) (placeholders : List String)
    (text : String) : String :=
  let t := sensitive.foldl (fun acc p => pyReplaceStr acc p.1 p.2) text
  placeholders.foldl (fun acc ph => pyReplaceStr acc ph "") t

def MESSAGE_MAX_LEN : Nat := 256

/-- A resource argument's value, mirroring the Python 2 runtime types that
`Logger._get_resource_repr` distinguishes: `unicode`, byte `str`, `dict`
(keys with the `repr` of their values, which the code never inspects
further outside DEBUG), the `UnknownConfiguration` sentinel, `int`,
callables (carrying `__name__` and the object's `repr`) and any other
object (carrying its `repr`). -/
inductive Value where
  | vunicode : String → Value
  | vstr : String → Value
  | vdict : List (String × String) → Value
  | vunknownConfig : Value
  | vint : Int → Value
  | vcallable : String → String → Value
  | vother : String → Value
deriving DecidableEq

/-- Python `s.lstrip('u')`: drop every leading `u`. -/
def lstripU (s : String) : String := String.mk (s.data.dropWhile (· == 'u'))

def hexDigit (n : Nat) : Char :=
  if n < 10 then Char.ofNat (48 + n) else Char.ofNat (87 + n)

/-- How CPython 2 `repr` escapes one character of a string, given the
chosen quote character. -/
def reprEscChar (q c : Char) : List Char :=
  if c = '\\' then ['\\', '\\']
  else if c = q then ['\\', q]
  else if c = '\n' then ['\\', 'n']
  else if c = '\r' then ['\\', 'r']
  else if c = '\t' then ['\\', 't']
  else if c.toNat < 32 ∨ 126 < c.toNat then
    ['\\', 'x', hexDigit (c.toNat / 16 % 16), hexDigit (c.toNat % 16)]
  else [c]

/-- CPython `repr` quote choice: a single quote unless the string contains
one and no double quote. -/
def reprQuote (s : String) : Char :=
  if s.data.contains '\'' && !(s.data.contains '"') then '"' else '\''

/-- Python 2 `repr` of a byte string. -/
def pyReprStr (s : String) : String :=
  let q := reprQuote s
  String.mk (q :: s.data.foldr (fun c acc => reprEscChar q c ++ acc) [q])

/-- Python 2 `repr` of a unicode string: a `u` prefix before the quoted
form. -/
def pyReprUnicode (s : String) : String := "u" ++ pyReprStr s

def joinSep (sep : String) : List String → String
  | [] => ""
  | [s] => s
  | s :: rest => s ++ sep ++ joinSep sep rest

/-- Python `repr` of a dict whose keys are strings; the values' own reprs
are carried opaquely by `Value.vdict`. -/
def pyReprDict (entries : List (String × String)) : String :=
  "\x7b" ++ joinSep ", " (entries.map fun kv => pyReprStr kv.1 ++ ": " ++ kv.2) ++ "\x7d"

/-- Python 2 `oct` of an int. -/
def pyOct (n : Int) : String :=
  if n < 0 then "-0" ++ String.mk (Nat.toDigits 8 (-n).toNat)
  else if n = 0 then "0"
  else "0" ++ String.mk (Nat.toDigits 8 n.toNat)

/-- Python truthiness of a resource-argument value.  The
`UnknownConfiguration` sentinel is a plain object, hence truthy; it is
rendered as `[EMPTY]` before its repr could ever be consulted. -/
def truthyValue : Value → Bool
  | .vunicode s => !s.data.isEmpty
  | .vstr s => !s.data.isEmpty
  | .vdict d => !d.isEmpty
  | .vunknownConfig => true
  | .vint n => n != 0
  | .vcallable _ _ => true
  | .vother _ => true

/-- Python `repr` of a value (the `vunknownConfig` line is unreachable
through `renderVal`, which maps that sentinel to `[EMPTY]` first). -/
def reprValue : Value → String
  | .vunicode s => pyReprUnicode s
  | .vstr s => pyReprStr s
  | .vdict d => pyReprDict d
  | .vunknownConfig => "<UnknownConfiguration>"
  | .vint n => toString n
  | .vcallable _ r => r
  | .vother r => r

/-- The `val` computed for one argument by `Logger._get_resource_repr`,
following the source's `elif` chain in order: the `unicode` branch
(truncating to `'...'` past `MESSAGE_MAX_LEN` characters and stripping the
`u` prefix of the repr), then non-DEBUG dict suppression, then the
`UnknownConfiguration` sentinel, then the octal `mode` branch (whose
`oct(y)` raises and falls back to `repr(y)` for every non-int), then
callables by `__name__`, then plain `repr`. -/
def renderVal (level : String) (x : String) (y : Value) : String :=
  match y with
  | .vunicode s =>
    let s := if MESSAGE_MAX_LEN < s.length then "..." else s
    lstripU (pyReprUnicode s)
  | .vdict d => if level ≠ "DEBUG" then "..." else pyReprDict d
  | .vunknownConfig => "[EMPTY]"
  | y =>
    if truthyValue y && x == "mode" then
      match y with
      | .vint n => pyOct n
      | _ => reprValue y
    else
      match y with
      | .vcallable nm _ => nm
      | _ => reprValue y

/-- A resource as the logger sees it: `str(resource)` (opaque) and the
argument mapping in iteration order. -/
structure LoggedResource where
  resourceStr : String
  arguments : List (String × Value)

/-- `Logger._get_resource_repr`: render each argument as `'name': val`,
join with `, `, strip the trailing separator, and wrap in
`str(resource) { ... }`.  `level` is the current log level's name. -/
def getResourceRepr (level : String) (res : LoggedResource) : String :=
  let argumentsStr := String.join
    (res.arguments.map fun a => "'" ++ a.1 ++ "': " ++ renderVal level a.1 a.2 ++ ", ")
  let argumentsStr := String.mk argumentsStr.data.dropLast.dropLast
  res.resourceStr ++ " \x7b" ++ argumentsStr ++ "\x7d"

/-! ## Kerberos helper (`kerberos_common.py`) -/

/-- An identity descriptor, the dict read through `get_property_value`.
Modelled from the spec: `get_property_value` itself lives in `utils.py`,
which is not among the reviewed sources; per the spec an identity is the
mapping `{principal, password, keytab, keytab_file}` and a missing
property reads as `None`, so each property is an optional field. -/
structure Identity where
  principal : Option String := none
  password : Option String := none
  keytab : Option String := none
  keytab_file : Option String := none
deriving DecidableEq

/-- `get_property_value(identity, name)` on a possibly-`None` identity. -/
def getProp (i : Option Identity) (f : Identity → Option String) : Option String :=
  i.bind f

/-- Modelled from the spec: `shell.checked_call` (in `shell.py`, not among
the reviewed sources) runs a command against the filesystem and reports
`(return_code, captured_stdout)`; it raises only when the subprocess
cannot run.  The oracle may alter the filesystem (e.g. `ktadd` writes the
keytab it was asked for). -/
abbrev Shell := String → FS → Except Unit (Int × String) × FS

/-- The outcome of one helper operation: its value or propagated
exception, the commands it executed, and the final filesystem. -/
structure OpResult (α : Type) where
  result : Except Unit α
  trace : List String
  fs : FS

/-- The command format of `invoke_kadmin`:
`'%s %s %s -q "%s"' % (kadmin, credential, realm, query.replace('"', '\\"'))`. -/
def kadmin_command (kadmin credential realm query : String) : String :=
  kadmin ++ " " ++ credential ++ " " ++ realm ++ " -q \"" ++
    pyReplaceStr query "\"" "\\\"" ++ "\""

/-- The realm flag: `-r <realm>` when a non-empty default realm is given. -/
def realmArg : Option String → String
  | none => ""
  | some r => if 0 < r.length then "-r " ++ r else ""

/-- The `finally` of `invoke_kadmin`: delete the staged admin keytab file,
when one was created. -/
def cleanupStaged (fs : FS) : Option String → FS
  | none => fs
  | some t => removeFile fs t

/-- The tail of `invoke_kadmin`: build the command, run it, clean up the
staged keytab whether or not the call raised. -/
def invoke_kadmin_run (kadmin credential : String) (default_realm : Option String)
    (q : String) (shell : Shell) (fs : FS) (staged : Option String) :
    OpResult (Option (Int × String)) :=
  let command := kadmin_command kadmin credential (realmArg default_realm) q
  match shell command fs with
  | (.ok r, fs1) => ⟨.ok (some r), [command], cleanupStaged fs1 staged⟩
  | (.error _, fs1) => ⟨.error (), [command], cleanupStaged fs1 staged⟩

/-- `KerberosScript.invoke_kadmin`.  A blank query returns `None` without
running anything.  With no admin principal the tool is `kadmin.local` with
an empty credential; otherwise `kadmin -p "<principal>"` with `-w
"<password>"`, or a keytab staged from base64 into `tempPath` (the
`mkstemp` result), or — when the admin identity supplies neither — the
interpolation of the never-assigned `auth_keytab_file`, i.e. the literal
`-k -t None`.  A base64 decode error propagates after `mkstemp` created
the temporary file. -/
def invoke_kadmin (query : Option String) (admin_identity : Option Identity)
    (default_realm : Option String) (shell : Shell) (tempPath : String) (fs : FS) :
    OpResult (Option (Int × String)) :=
  match query with
  | none => ⟨.ok none, [], fs⟩
  | some q =>
    if 0 < q.length then
      match getProp admin_identity Identity.principal with
      | none => invoke_kadmin_run "kadmin.local" "" default_realm q shell fs none
      | some ap =>
        let kadmin := "kadmin -p \"" ++ ap ++ "\""
        match getProp admin_identity Identity.password with
        | some pw =>
          invoke_kadmin_run kadmin ("-w \"" ++ pw ++ "\"") default_realm q shell fs none
        | none =>
          match getProp admin_identity Identity.keytab with
          | none =>
            invoke_kadmin_run kadmin "-k -t None" default_realm q shell fs none
          | some kt =>
            match b64decode kt.data with
            | .error _ => ⟨.error (), [], setFile fs tempPath []⟩
            | .ok bs =>
              invoke_kadmin_run kadmin ("-k -t " ++ tempPath) default_realm q shell
                (setFile fs tempPath bs) (some tempPath)
    else ⟨.ok none, [], fs⟩

/-- `KerberosScript.create_principal`: `addprinc` with `-randkey` or
`-pw "<password>"`; success iff exit code 0; any exception from the
invocation (including unpacking a `None` result) becomes `Fail`. -/
def create_principal (identity auth_identity : Option Identity) (shell : Shell)
    (tempPath : String) (fs : FS) : OpResult Bool :=
  match identity with
  | none => ⟨.ok false, [], fs⟩
  | some i =>
    match i.principal with
    | none => ⟨.ok false, [], fs⟩
    | some p =>
      if 0 < p.length then
        let credentials := match i.password with
          | none => "-randkey"
          | some pw => "-pw \"" ++ pw ++ "\""
        let r := invoke_kadmin (some ("addprinc " ++ credentials ++ " " ++ p))
          auth_identity none shell tempPath fs
        match r.result with
        | .ok (some (c, _)) => ⟨.ok (c == 0), r.trace, r.fs⟩
        | .ok none => ⟨.error (), r.trace, r.fs⟩
        | .error _ => ⟨.error (), r.trace, r.fs⟩
      else ⟨.ok false, [], fs⟩

/-- `KerberosScript.change_principal_password`: `change_password` with
`-randkey` or `-pw "<password>"`; success iff exit code 0. -/
def change_principal_password (identity auth_identity : Option Identity)
    (shell : Shell) (tempPath : String) (fs : FS) : OpResult Bool :=
  match identity with
  | none => ⟨.ok false, [], fs⟩
  | some i =>
    match i.principal with
    | none => ⟨.ok false, [], fs⟩
    | some p =>
      if 0 < p.length then
        let credentials := match i.password with
          | none => "-randkey"
          | some pw => "-pw \"" ++ pw ++ "\""
        let r := invoke_kadmin (some ("change_password " ++ credentials ++ " " ++ p))
          auth_identity none shell tempPath fs
        match r.result with
        | .ok (some (c, _)) => ⟨.ok (c == 0), r.trace, r.fs⟩
        | .ok none => ⟨.error (), r.trace, r.fs⟩
        | .error _ => ⟨.error (), r.trace, r.fs⟩
      else ⟨.ok false, [], fs⟩

/-- `KerberosScript.principal_exists`: run `getprinc <principal>`, then
report whether the captured output contains `Principal: <principal>`. -/
def principal_exists (identity auth_identity : Option Identity) (shell : Shell)
    (tempPath : String) (fs : FS) : OpResult Bool :=
  match identity with
  | none => ⟨.ok false, [], fs⟩
  | some i =>
    match i.principal with
    | none => ⟨.ok false, [], fs⟩
    | some p =>
      if 0 < p.length then
        let r := invoke_kadmin (some ("getprinc " ++ p)) auth_identity none shell
          tempPath fs
        match r.result with
        | .ok (some (_, o)) => ⟨.ok (strContains o ("Principal: " ++ p)), r.trace, r.fs⟩
        | .ok none => ⟨.error (), r.trace, r.fs⟩
        | .error _ => ⟨.error (), r.trace, r.fs⟩
      else ⟨.ok false, [], fs⟩

/-- `KerberosScript.create_keytab_file`: `ktadd -k <path> [-norandkey]
<principal>`; success iff exit code 0.  The source also treats an empty
admin dict like an absent one; the record model of identities cannot
distinguish an empty dict, so absence alone selects `-norandkey`. -/
def create_keytab_file (principal path : Option String)
    (auth_identity : Option Identity) (shell : Shell) (tempPath : String)
    (fs : FS) : OpResult Bool :=
  match principal with
  | none => ⟨.ok false, [], fs⟩
  | some p =>
    if 0 < p.length then
      let norandkey := match auth_identity with
        | none => "-norandkey"
        | some _ => ""
      let keytabFlag := match path with
        | some pa => if 0 < pa.length then "-k " ++ pa else ""
        | none => ""
      let r := invoke_kadmin
        (some ("ktadd " ++ keytabFlag ++ " " ++ norandkey ++ " " ++ p))
        auth_identity none shell tempPath fs
      match r.result with
      | .ok (some (c, _)) => ⟨.ok (c == 0), r.trace, r.fs⟩
      | .ok none => ⟨.error (), r.trace, r.fs⟩
      | .error _ => ⟨.error (), r.trace, r.fs⟩
    else ⟨.ok false, [], fs⟩

/-- The `finally` of `create_keytab`: delete the temporary keytab when a
file is present at its path. -/
def cleanupTemp (fs : FS) (t : String) : FS :=
  if (fs t).isSome then removeFile fs t else fs

/-- `KerberosScript.create_keytab`: allocate a temporary path (`mkstemp`
creates the file, which is removed at once), have `create_keytab_file`
fill it, read and base64-encode the bytes when that succeeded (reading a
missing file raises), and delete the temporary file on every exit path.
`tempPath` is this operation's `mkstemp` path, `innerTempPath` the one the
nested `invoke_kadmin` would use for a staged admin keytab. -/
def create_keytab (principal : Option String) (auth_identity : Option Identity)
    (shell : Shell) (tempPath innerTempPath : String) (fs : FS) :
    OpResult (Option String) :=
  let fs0 := removeFile (setFile fs tempPath []) tempPath
  let r := create_keytab_file principal (some tempPath) auth_identity shell
    innerTempPath fs0
  match r.result with
  | .ok true =>
    match r.fs tempPath with
    | some bs =>
      ⟨.ok (some (String.mk (b64encode bs))), r.trace, cleanupTemp r.fs tempPath⟩
    | none => ⟨.error (), r.trace, cleanupTemp r.fs tempPath⟩
  | .ok false => ⟨.ok none, r.trace, cleanupTemp r.fs tempPath⟩
  | .error _ => ⟨.error (), r.trace, cleanupTemp r.fs tempPath⟩

/-! ### krb5.conf section writer -/

def KRB5_REALM_PROPERTIES : List String :=
  ["kdc", "admin_server", "default_domain", "master_kdc"]

/-- `KerberosScript.write_conf_section`: the text written to the output
file for a flat section.  Mappings are association lists in iteration
order. -/
def write_conf_section (section_name : Option String)
    (section_data : Option (List (String × String))) : String :=
  match section_name with
  | none => ""
  | some name =>
    "[" ++ name ++ "]\n" ++
      (match section_data with
       | none => ""
       | some kvs => String.join (kvs.map fun kv => " " ++ kv.1 ++ " = " ++ kv.2 ++ "\n"))

/-- `KerberosScript._write_conf_realm`: one realm block; only keys on the
`KRB5_REALM_PROPERTIES` allow-list are written. -/
def write_conf_realm (realm_name : Option String)
    (realm_data : Option (List (String × String))) : String :=
  match realm_name with
  | none => ""
  | some name =>
    " " ++ name ++ " = \x7b\n" ++
      (match realm_data with
       | none => ""
       | some kvs => String.join (kvs.map fun kv =>
           if kv.1 ∈ KRB5_REALM_PROPERTIES then "  " ++ kv.1 ++ " = " ++ kv.2 ++ "\n"
           else "")) ++
      " \x7d\n"

/-- `KerberosScript.write_conf_realms_section`: the section header, then
every realm's block followed by a blank line. -/
def write_conf_realms_section (section_name : Option String)
    (realms_data : Option (List (String × Option (List (String × String))))) : String :=
  match section_name with
  | none => ""
  | some name =>
    "[" ++ name ++ "]\n" ++
      (match realms_data with
       | none => ""
       | some realms => String.join (realms.map fun rd =>
           write_conf_realm (some rd.1) rd.2 ++ "\n"))

/-! ### test_kinit -/

/-- One observable credential action of `test_kinit`: a command run
through `Execute`/`checked_call`, or the `kinit` subprocess fed the
password on stdin. -/
inductive KAction where
  | cmd : String → KAction
  | kinitPassword : String → String → KAction
deriving DecidableEq

def KAction.isPasswordKinit : KAction → Bool
  | .kinitPassword _ _ => true
  | _ => false

/-- The outcome of `test_kinit`: the returned `(code, out)` or propagated
exception, the credential actions taken in order, and the final
filesystem. -/
structure KinitResult where
  result : Except Unit (Int × String)
  trace : List KAction
  fs : FS

/-- Modelled from the spec: the `Execute` resource (from the orchestration
framework, not among the reviewed sources) runs the command and raises a
failure when it cannot run or exits nonzero. -/
def executeCmd (shell : Shell) (command : String) (fs : FS) : Except Unit Unit × FS :=
  match shell command fs with
  | (.ok (c, _), fs1) => (if c == 0 then .ok () else .error (), fs1)
  | (.error _, fs1) => (.error (), fs1)

/-- The shared tail of the keytab branches of `test_kinit`:
`Execute('kinit -k -t <file> <principal>')` then
`shell.checked_call('kdestroy')`. -/
def kinitWithKeytab (keytabPath principal : String) (shell : Shell) (fs : FS) :
    Except Unit (Int × String) × List KAction × FS :=
  let command := "kinit -k -t " ++ keytabPath ++ " " ++ principal
  match executeCmd shell command fs with
  | (.error _, fs1) => (.error (), [.cmd command], fs1)
  | (.ok _, fs1) =>
    match shell "kdestroy" fs1 with
    | (.ok r, fs2) => (.ok r, [.cmd command, .cmd "kdestroy"], fs2)
    | (.error _, fs2) => (.error (), [.cmd command, .cmd "kdestroy"], fs2)

/-- `KerberosScript.test_kinit`: prefer an existing keytab file, then
base64 keytab data staged into `tempPath` (deleted afterwards), then the
password fed to a `kinit` subprocess (`popen` gives its return code), else
a `(0, '')` no-op.  A nonzero password attempt raises a `Fail` whose
message passes through the log redaction. -/
def test_kinit (identity : Option Identity) (shell : Shell)
    (popen : String → String → Int) (tempPath : String) (fs : FS) : KinitResult :=
  match getProp identity Identity.principal with
  | none => ⟨.ok (0, ""), [], fs⟩
  | some p =>
    let keytabFileProp := getProp identity Identity.keytab_file
    let keytabProp := getProp identity Identity.keytab
    let passwordProp := getProp identity Identity.password
    match keytabFileProp with
    | some kf =>
      if (fs kf).isSome then
        match kinitWithKeytab kf p shell fs with
        | (r, tr, fs1) => ⟨r, tr, fs1⟩
      else test_kinit_rest p keytabProp passwordProp shell popen tempPath fs
    | none => test_kinit_rest p keytabProp passwordProp shell popen tempPath fs
where
  /-- The `elif` chain after the keytab-file test. -/
  test_kinit_rest (p : String) (keytabProp passwordProp : Option String)
      (shell : Shell) (popen : String → String → Int) (tempPath : String)
      (fs : FS) : KinitResult :=
    match keytabProp with
    | some kt =>
      match b64decode kt.data with
      | .error _ => ⟨.error (), [], setFile fs tempPath []⟩
      | .ok bs =>
        match kinitWithKeytab tempPath p shell (setFile fs tempPath bs) with
        | (r, tr, fs1) => ⟨r, tr, removeFile fs1 tempPath⟩
    | none =>
      match passwordProp with
      | some pw =>
        let rc := popen p pw
        if rc != 0 then ⟨.error (), [.kinitPassword p pw], fs⟩
        else
          match shell "kdestroy" fs with
          | (.ok r, fs1) => ⟨.ok r, [.kinitPassword p pw, .cmd "kdestroy"], fs1⟩
          | (.error _, fs1) => ⟨.error (), [.kinitPassword p pw, .cmd "kdestroy"], fs1⟩
      | none => ⟨.ok (0, ""), [], fs⟩

/-! ### write_keytab_file -/

/-- One entry of `params.kerberos_command_params`, read through
`get_property_value`. -/
structure KeytabItem where
  keytab_content_base64 : Option String := none
  keytab_file_path : Option String := none
  keytab_file_owner : Option String := none
  keytab_file_owner_access : Option String := none
  keytab_file_group : Option String := none
  keytab_file_group_access : Option String := none

/-- `KerberosScript._set_file_access` applies `chmod`/`chown`; the
filesystem model tracks contents only, so on it the permission setter is
the identity. -/
def set_file_access (fs : FS) (_path : Option String) (_owner _owner_access
    _group _group_access : Option String) : FS := fs

/-- The loop body of `write_keytab_file` over the configured items: for an
item with non-empty base64 content and non-empty target path, decode and
write the file (the `open` truncates the file before `b64decode` raises on
bad input, aborting the loop), then apply the permission settings. -/
def processKeytabItems : List KeytabItem → FS → Except Unit Unit × FS
  | [], fs => (.ok (), fs)
  | item :: rest, fs =>
    match item.keytab_content_base64 with
    | none => processKeytabItems rest fs
    | some content =>
      if 0 < content.length then
        match item.keytab_file_path with
        | none => processKeytabItems rest fs
        | some path =>
          if 0 < path.length then
            match b64decode content.data with
            | .error _ => (.error (), setFile fs path [])
            | .ok bs =>
              processKeytabItems rest
                (set_file_access (setFile fs path bs) (some path)
                  item.keytab_file_owner item.keytab_file_owner_access
                  item.keytab_file_group item.keytab_file_group_access)
          else processKeytabItems rest fs
      else processKeytabItems rest fs

/-- `KerberosScript.write_keytab_file` over
`params.kerberos_command_params`. -/
def write_keytab_file (items : Option (List KeytabItem)) (fs : FS) :
    Except Unit Unit × FS :=
  match items with
  | none => (.ok (), fs)
  | some list => processKeytabItems list fs

/-! ## Helper lemmas -/

theorem mem_replaceEmptyPat {rep : List Char} :
    ∀ {s : List Char} {x : Char}, x ∈ replaceEmptyPat rep s → x ∈ s ∨ x ∈ rep := by
  intro s
  induction s with
  | nil => intro x h; simp [replaceEmptyPat] at h; exact Or.inr h
  | cons c cs ih =>
    intro x h
    simp only [replaceEmptyPat, List.mem_append, List.mem_cons] at h
    rcases h with h | h | h
    · exact Or.inr h
    · exact Or.inl (h ▸ List.mem_cons_self c cs)
    · rcases ih h with h' | h'
      · exact Or.inl (List.mem_cons_of_mem c h')
      · exact Or.inr h'

theorem mem_replaceFuel {pat rep : List Char} :
    ∀ {n : Nat} {s : List Char} {x : Char},
      x ∈ replaceFuel pat rep n s → x ∈ s ∨ x ∈ rep := by
  intro n
  induction n with
  | zero =>
    intro s x h
    cases s with
    | nil => simp [replaceFuel] at h
    | cons c cs => exact Or.inl h
  | succ n ih =>
    intro s x h
    cases s with
    | nil => simp [replaceFuel] at h
    | cons c cs =>
      rw [replaceFuel] at h
      by_cases hp : pat.isPrefixOf (c :: cs)
      · rw [if_pos hp] at h
        rcases List.mem_append.mp h with h' | h'
        · exact Or.inr h'
        · rcases ih h' with h'' | h''
          · exact Or.inl (List.mem_cons_of_mem c (List.drop_subset _ _ h''))
          · exact Or.inr h''
      · rw [if_neg hp] at h
        rcases List.mem_cons.mp h with h' | h'
        · exact Or.inl (h' ▸ List.mem_cons_self c cs)
        · rcases ih h' with h'' | h''
          · exact Or.inl (List.mem_cons_of_mem c h'')
          · exact Or.inr h''

theorem mem_pyReplace {s pat rep : List Char} {x : Char}
    (h : x ∈ pyReplace s pat rep) : x ∈ s ∨ x ∈ rep := by
  unfold pyReplace at h
  by_cases hp : pat = []
  · rw [if_pos hp] at h; exact mem_replaceEmptyPat h
  · rw [if_neg hp] at h; exact mem_replaceFuel h

/-- Replacing a single-character pattern removes every occurrence of that
character, when the replacement itself avoids it. -/
theorem not_mem_replaceFuel_single {c : Char} {rep : List Char} (hc : c ∉ rep) :
    ∀ {n : Nat} {s : List Char}, s.length ≤ n → c ∉ replaceFuel [c] rep n s := by
  intro n
  induction n with
  | zero =>
    intro s hl
    have : s = [] := List.eq_nil_of_length_eq_zero (Nat.le_zero.mp hl)
    subst this
    simp [replaceFuel]
  | succ n ih =>
    intro s hl
    cases s with
    | nil => simp [replaceFuel]
    | cons d ds =>
      rw [replaceFuel]
      by_cases hp : List.isPrefixOf [c] (d :: ds)
      · rw [if_pos hp]
        intro hmem
        rcases List.mem_append.mp hmem with h' | h'
        · exact hc h'
        · have hlen : (ds.drop (List.length [c] - 1)).length ≤ n := by
            simp only [List.length_cons] at hl
            calc (ds.drop (List.length [c] - 1)).length ≤ ds.length :=
                  by simp
              _ ≤ n := Nat.lt_succ_iff.mp (Nat.lt_of_lt_of_le (Nat.lt_succ_self _) hl)
          exact ih hlen h'
      · rw [if_neg hp]
        intro hmem
        rcases List.mem_cons.mp hmem with h' | h'
        · subst h'
          exact hp (by simp [List.isPrefixOf])
        · have hlen : ds.length ≤ n := by
            simp only [List.length_cons] at hl; omega
          exact ih hlen h'

theorem b64Idx_b64Char : ∀ i < 64, b64Idx (b64Char i) = some i := by decide

theorem keepB64_b64Char : ∀ i < 64, keepB64 (b64Char i) = true := by decide

theorem b64Char_ne_pad : ∀ i < 64, b64Char i ≠ '=' := by decide

theorem keepB64_pad : keepB64 '=' = true := by decide

theorem b64encode_keep :
    ∀ (B : List Nat), (∀ b ∈ B, b < 256) → ∀ c ∈ b64encode B, keepB64 c = true
  | [], _ => by simp [b64encode]
  | [b1], h => by
    have h1 : b1 < 256 := h b1 (by simp)
    simp only [b64encode, List.mem_cons, List.not_mem_nil, or_false]
    rintro c (rfl | rfl | rfl | rfl)
    · exact keepB64_b64Char _ (by omega)
    · exact keepB64_b64Char _ (by omega)
    · exact keepB64_pad
    · exact keepB64_pad
  | [b1, b2], h => by
    have h1 : b1 < 256 := h b1 (by simp)
    have h2 : b2 < 256 := h b2 (by simp)
    simp only [b64encode, List.mem_cons, List.not_mem_nil, or_false]
    rintro c (rfl | rfl | rfl | rfl)
    · exact keepB64_b64Char _ (by omega)
    · exact keepB64_b64Char _ (by omega)
    · exact keepB64_b64Char _ (by omega)
    · exact keepB64_pad
  | b1 :: b2 :: b3 :: rest, h => by
    have h1 : b1 < 256 := h b1 (by simp)
    have h2 : b2 < 256 := h b2 (by simp)
    have h3 : b3 < 256 := h b3 (by simp)
    have ih := b64encode_keep rest (fun b hb => h b (by simp [hb]))
    simp only [b64encode, List.mem_cons]
    rintro c (rfl | rfl | rfl | rfl | hc)
    · exact keepB64_b64Char _ (by omega)
    · exact keepB64_b64Char _ (by omega)
    · exact keepB64_b64Char _ (by omega)
    · exact keepB64_b64Char _ (by omega)
    · exact ih c hc

theorem decodeQuads_b64encode :
    ∀ (B : List Nat), (∀ b ∈ B, b < 256) → decodeQuads (b64encode B) = .ok B
  | [], _ => rfl
  | [b1], h => by
    have h1 : b1 < 256 := h b1 (by simp)
    have e1 := b64Idx_b64Char (b1 / 4) (by omega)
    have e2 := b64Idx_b64Char (b1 % 4 * 16) (by omega)
    simp [b64encode, decodeQuads, e1, e2]
    omega
  | [b1, b2], h => by
    have h1 : b1 < 256 := h b1 (by simp)
    have h2 : b2 < 256 := h b2 (by simp)
    have e1 := b64Idx_b64Char (b1 / 4) (by omega)
    have e2 := b64Idx_b64Char (b1 % 4 * 16 + b2 / 16) (by omega)
    have e3 := b64Idx_b64Char (b2 % 16 * 4) (by omega)
    have ne3 := b64Char_ne_pad (b2 % 16 * 4) (by omega)
    simp [b64encode, decodeQuads, e1, e2, e3, ne3]
    omega
  | b1 :: b2 :: b3 :: rest, h => by
    have h1 : b1 < 256 := h b1 (by simp)
    have h2 : b2 < 256 := h b2 (by simp)
    have h3 : b3 < 256 := h b3 (by simp)
    have e1 := b64Idx_b64Char (b1 / 4) (by omega)
    have e2 := b64Idx_b64Char (b1 % 4 * 16 + b2 / 16) (by omega)
    have e3 := b64Idx_b64Char (b2 % 16 * 4 + b3 / 64) (by omega)
    have e4 := b64Idx_b64Char (b3 % 64) (by omega)
    have ne3 := b64Char_ne_pad (b2 % 16 * 4 + b3 / 64) (by omega)
    have ne4 := b64Char_ne_pad (b3 % 64) (by omega)
    have ih := decodeQuads_b64encode rest (fun b hb => h b (by simp [hb]))
    simp [b64encode, decodeQuads, e1, e2, e3, e4, ne3, ne4, ih, Except.map]
    refine ⟨by omega, by omega, by omega⟩

/-- Round trip: decoding a canonical base64 encoding restores the bytes. -/
theorem b64decode_b64encode (B : List Nat) (h : ∀ b ∈ B, b < 256) :
    b64decode (b64encode B) = .ok B := by
  unfold b64decode
  rw [List.filter_eq_self.mpr (b64encode_keep B h), decodeQuads_b64encode B h]

theorem b64encode_ne_nil : ∀ {B : List Nat}, B ≠ [] → b64encode B ≠ []
  | [], h => absurd rfl h
  | [_], _ => by simp [b64encode]
  | [_, _], _ => by simp [b64encode]
  | _ :: _ :: _ :: _, _ => by simp [b64encode]

theorem kinitWithKeytab_no_password (kp p : String) (shell : Shell) (fs : FS) :
    ((kinitWithKeytab kp p shell fs).2.1.all fun a => !a.isPasswordKinit) = true := by
  unfold kinitWithKeytab
  dsimp only
  split
  · simp [KAction.isPasswordKinit]
  · split <;> simp [KAction.isPasswordKinit]

theorem test_kinit_rest_no_password (p : String) (kto pwo : Option String)
    (shell : Shell) (popen : String → String → Int) (temp : String) (fs : FS)
    (h : kto.isSome) :
    ((test_kinit.test_kinit_rest p kto pwo shell popen temp fs).trace.all
      fun a => !a.isPasswordKinit) = true := by
  cases kto with
  | none => simp at h
  | some kt =>
    unfold test_kinit.test_kinit_rest
    cases hd : b64decode kt.data with
    | error e => simp [hd]
    | ok bs =>
      simp only [hd]
      rcases hK : kinitWithKeytab temp p shell (setFile fs temp bs) with ⟨r, tr, fs1⟩
      simp only [hK]
      have := kinitWithKeytab_no_password temp p shell (setFile fs temp bs)
      rw [hK] at this
      exact this

/-! ## Claims -/

/-- C1 (counterexample): for the identity `{principal: "a@R", password:
"pw", keytab: "aQ=="}` — which supplies both a password and base64 keytab
content — `test_kinit` authenticates with the staged keytab (`kinit -k -t
<tempfile> a@R`) and never feeds the password to `kinit`: the password is
not the credential form used, so password does not take precedence over
keytab. -/
theorem test_kinit_password_and_keytab_uses_keytab :
    (test_kinit (some ⟨some "a@R", some "pw", some "aQ==", none⟩)
      (fun _ fs => (.ok (0, ""), fs)) (fun _ _ => 0) "/tmp/kt" emptyFS).trace
      = [.cmd "kinit -k -t /tmp/kt a@R", .cmd "kdestroy"] := by decide

/-- C1 (amended): in `test_kinit` the keytab takes precedence over the
password: whenever the identity supplies a password together with a keytab
form (an existing keytab file, or base64 keytab content), the password
path (feeding the password to a `kinit` subprocess) is never taken. -/
theorem test_kinit_keytab_precedence (i : Identity) (pw : String) (shell : Shell)
    (popen : String → String → Int) (temp : String) (fs : FS)
    (hpw : i.password = some pw)
    (hkt : (∃ kf, i.keytab_file = some kf ∧ (fs kf).isSome) ∨ i.keytab.isSome) :
    ((test_kinit (some i) shell popen temp fs).trace.all
      fun a => !a.isPasswordKinit) = true := by
  obtain ⟨pro, pwo, kto, kfo⟩ := i
  simp only [Identity.keytab_file, Identity.keytab] at hkt
  unfold test_kinit
  simp only [getProp, Option.some_bind]
  cases pro with
  | none => simp
  | some p =>
    dsimp only
    cases kfo with
    | some kf =>
      dsimp only
      by_cases hf : (fs kf).isSome
      · rw [if_pos hf]
        rcases hK : kinitWithKeytab kf p shell fs with ⟨r, tr, fs1⟩
        have hnp := kinitWithKeytab_no_password kf p shell fs
        rw [hK] at hnp
        simpa using hnp
      · rw [if_neg hf]
        apply test_kinit_rest_no_password
        rcases hkt with ⟨kf2, hkf2, hsome⟩ | h
        · cases hkf2; exact absurd hsome hf
        · exact h
    | none =>
      dsimp only
      apply test_kinit_rest_no_password
      rcases hkt with ⟨kf2, hkf2, _⟩ | h
      · exact absurd hkf2 (by simp)
      · exact h

/-- C1 (witness): the amended precedence theorem applied to a concrete
identity supplying both a password and base64 keytab content. -/
theorem test_kinit_keytab_precedence_witness :
    ((test_kinit (some ⟨some "a@R", some "pw", some "aQ==", none⟩)
      (fun _ fs => (.ok (0, ""), fs)) (fun _ _ => 0) "/tmp/kt" emptyFS).trace.all
      fun a => !a.isPasswordKinit) = true :=
  test_kinit_keytab_precedence ⟨some "a@R", some "pw", some "aQ==", none⟩ "pw"
    (fun _ fs => (.ok (0, ""), fs)) (fun _ _ => 0) "/tmp/kt" emptyFS rfl (Or.inr rfl)

/-- C2 (counterexample): with the identity `{principal: "a@REALM",
password: "pw"}` and no admin identity, the claimed command string
`kadmin.local  -q "addprinc -pw \"pw\" a@REALM"` (two spaces before `-q`)
is not what `create_principal` executes: the `'%s %s %s -q "%s"'` format
leaves three spaces when both credential and realm are empty. -/
theorem create_principal_claimed_command_wrong :
    (create_principal (some ⟨some "a@REALM", some "pw", none, none⟩) none
      (fun _ fs => (.ok (0, ""), fs)) "/tmp/t" emptyFS).trace
      ≠ ["kadmin.local  -q \"addprinc -pw \\\"pw\\\" a@REALM\""] := by decide

/-- C2 (amended): for the identity `{principal: "a@REALM", password:
"pw"}` and no admin identity, `create_principal` builds and executes
exactly `kadmin.local   -q "addprinc -pw \"pw\" a@REALM"` (three spaces:
empty credential and empty realm each leave a separator) and returns true
iff the mocked exit code is 0. -/
theorem create_principal_local_command (c : Int) (o : String) :
    create_principal (some ⟨some "a@REALM", some "pw", none, none⟩) none
      (fun _ fs => (.ok (c, o), fs)) "/tmp/t" emptyFS
      = ⟨.ok (c == 0),
         ["kadmin.local   -q \"addprinc -pw \\\"pw\\\" a@REALM\""], emptyFS⟩ := rfl

/-- C9: a blank query (None or the empty string) makes `invoke_kadmin` a
silent no-op: no subprocess is invoked (empty trace), no result is
produced (the Python function returns `None`), no error is raised, and
the filesystem is untouched — for every admin identity and realm. -/
theorem invoke_kadmin_blank_noop (q : Option String) (h : q = none ∨ q = some "")
    (admin : Option Identity) (realm : Option String) (shell : Shell)
    (temp : String) (fs : FS) :
    invoke_kadmin q admin realm shell temp fs = ⟨.ok none, [], fs⟩ := by
  rcases h with rfl | rfl
  · rfl
  · rfl

/-- C9 (witness): the blank-query theorem applied to the `None` query. -/
theorem invoke_kadmin_blank_noop_witness :
    invoke_kadmin none none none (fun _ fs => (.ok (0, ""), fs)) "/t" emptyFS
      = ⟨.ok none, [], emptyFS⟩ :=
  invoke_kadmin_blank_noop none (Or.inl rfl) none none
    (fun _ fs => (.ok (0, ""), fs)) "/t" emptyFS

/-- C10: for every non-empty query and an admin identity that has a
principal but neither password nor keytab, `invoke_kadmin` still builds
the keytab credential flag, interpolating the never-assigned
`auth_keytab_file` (Python `None`), so the one executed command contains
the literal text `-k -t None`. -/
theorem invoke_kadmin_missing_keytab_flag (q p : String) (hq : 0 < q.length)
    (_hp : 0 < p.length) (kf realm : Option String) (shell : Shell)
    (temp : String) (fs : FS) :
    (invoke_kadmin (some q) (some ⟨some p, none, none, kf⟩) realm shell temp fs).trace
      = [kadmin_command ("kadmin -p \"" ++ p ++ "\"") "-k -t None" (realmArg realm) q]
    ∧ "-k -t None".data <:+:
        (kadmin_command ("kadmin -p \"" ++ p ++ "\"") "-k -t None" (realmArg realm) q).data := by
  constructor
  · unfold invoke_kadmin
    dsimp only [getProp, Option.some_bind]
    rw [if_pos hq]
    unfold invoke_kadmin_run
    dsimp only
    split <;> rfl
  · refine ⟨("kadmin -p \"" ++ p ++ "\"" ++ " ").data,
      (" " ++ realmArg realm ++ " -q \"" ++ pyReplaceStr q "\"" "\\\"" ++ "\"").data, ?_⟩
    simp only [kadmin_command, String.data_append, List.append_assoc]

/-- C10 (witness): the keytab-flag theorem at a concrete query and admin
principal. -/
theorem invoke_kadmin_missing_keytab_flag_witness :
    (invoke_kadmin (some "getprinc x") (some ⟨some "adm@R", none, none, none⟩)
      none (fun _ fs => (.ok (0, ""), fs)) "/t" emptyFS).trace
      = [kadmin_command ("kadmin -p \"" ++ "adm@R" ++ "\"") "-k -t None"
          (realmArg none) "getprinc x"]
    ∧ "-k -t None".data <:+:
        (kadmin_command ("kadmin -p \"" ++ "adm@R" ++ "\"") "-k -t None"
          (realmArg none) "getprinc x").data :=
  invoke_kadmin_missing_keytab_flag "getprinc x" "adm@R" (by decide) (by decide)
    none none (fun _ fs => (.ok (0, ""), fs)) "/t" emptyFS

/-- C4: for every identity with a non-empty principal, `principal_exists`
returns true iff the captured kadmin output contains the substring
`Principal: <principal>`; for any other output, including the empty one,
it returns false. -/
theorem principal_exists_contains (p : String) (hp : 0 < p.length)
    (c : Int) (o : String) :
    ((principal_exists (some ⟨some p, none, none, none⟩) none
      (fun _ fs => (.ok (c, o), fs)) "/t" emptyFS).result = .ok true
      ↔ ("Principal: " ++ p).data <:+: o.data) := by
  have hlen : 0 < ("getprinc " ++ p).length := by
    rw [String.length_append]
    have h9 : 0 < "getprinc ".length := by decide
    omega
  have hr : invoke_kadmin (some ("getprinc " ++ p)) none none
      (fun _ fs => (.ok (c, o), fs)) "/t" emptyFS
      = ⟨.ok (some (c, o)), [kadmin_command "kadmin.local" "" (realmArg none)
          ("getprinc " ++ p)], emptyFS⟩ := by
    unfold invoke_kadmin
    dsimp only [getProp, Option.none_bind]
    rw [if_pos hlen]
    rfl
  unfold principal_exists
  dsimp only [Option.some_bind]
  rw [if_pos hp, hr]
  dsimp only
  simp [strContains]

/-- C4 (witness): the containment equivalence applied to the principal
`a` and an output that names it. -/
theorem principal_exists_contains_witness :
    (principal_exists (some ⟨some "a", none, none, none⟩) none
      (fun _ fs => (.ok (0, "Principal: a\nExpiry: never"), fs)) "/t" emptyFS).result
      = .ok true :=
  (principal_exists_contains "a" (by decide) 0 "Principal: a\nExpiry: never").mpr
    (by decide)

theorem cleanupTemp_self (fs : FS) (t : String) : cleanupTemp fs t t = none := by
  unfold cleanupTemp removeFile
  split
  · simp
  · next h => exact Option.not_isSome_iff_eq_none.mp h

/-- C5: after every call to `create_keytab` — whether the inner
`create_keytab_file` reported success, failure, or raised — no file
remains at the temporary path it allocated: the `finally` block removes
it on every exit path. -/
theorem create_keytab_removes_temp (principal : Option String)
    (auth : Option Identity) (shell : Shell) (temp inner : String) (fs : FS) :
    (create_keytab principal auth shell temp inner fs).fs temp = none := by
  unfold create_keytab
  dsimp only
  split
  · split
    · exact cleanupTemp_self _ _
    · exact cleanupTemp_self _ _
  · exact cleanupTemp_self _ _
  · exact cleanupTemp_self _ _

/-- C7: `write_conf_realms_section` with section name `realms` and the
single realm `EXAMPLE.COM` mapped to kdc, admin_server and the disallowed
key `bogus` emits exactly the claimed text, with `bogus` omitted by the
realm-property allow-list. -/
theorem write_conf_realms_section_example :
    write_conf_realms_section (some "realms")
      (some [("EXAMPLE.COM", some [("kdc", "k.example.com"),
        ("admin_server", "a.example.com"), ("bogus", "x")])])
      = "[realms]\n EXAMPLE.COM = \x7b\n  kdc = k.example.com\n  admin_server = a.example.com\n \x7d\n\n" := by
  decide

theorem foldl_strip_not_mem {c : Char} :
    ∀ (phs : List String) {t : String}, c ∉ t.data →
      c ∉ (phs.foldl (fun acc ph => pyReplaceStr acc ph "") t).data := by
  intro phs
  induction phs with
  | nil => intro t h; simpa using h
  | cons ph rest ih =>
    intro t h
    simp only [List.foldl_cons]
    apply ih
    intro hmem
    rcases mem_pyReplace hmem with h' | h'
    · exact h h'
    · simp at h'

/-- C3 (counterexample): with the pair `aa → a` registered, filtering the
text `aaa` yields `aa`, which still contains the unprotected substring
`aa`: a replacement can splice an occurrence of the unprotected string
back together, so the output is not always free of it. -/
theorem filter_text_reintroduces_unprotected :
    "aa".data <:+: (filter_text [("aa", "a")] [] "aaa").data := by decide

/-- C3 (amended): a registered pair whose unprotected string is a single
character that does not occur in its protected replacement is fully
redacted when its pair is applied last: for every input text, preceding
pairs and placeholder set, the filtered output never contains that
character.  (In general, sequential replacement can reintroduce a
multi-character unprotected string, or a later pair can reintroduce an
earlier pair's — see the counterexample.) -/
theorem filter_text_single_char_redacted (pre : List (String × String)) (c : Char)
    (p : String) (hc : c ∉ p.data) (placeholders : List String) (text : String) :
    c ∉ (filter_text (pre ++ [(String.mk [c], p)]) placeholders text).data := by
  unfold filter_text
  rw [List.foldl_append]
  simp only [List.foldl_cons, List.foldl_nil]
  apply foldl_strip_not_mem
  unfold pyReplaceStr pyReplace
  dsimp only
  rw [if_neg (by simp)]
  exact not_mem_replaceFuel_single hc (le_refl _)

/-- C3 (witness): the single-character redaction theorem at the pair
`x → [PROTECTED]` and a concrete text. -/
theorem filter_text_single_char_redacted_witness :
    'x' ∉ (filter_text [(String.mk ['x'], "[PROTECTED]")] [] "a secret x here").data :=
  filter_text_single_char_redacted [] 'x' "[PROTECTED]" (by decide) [] "a secret x here"

/-- C6 (counterexample): for the keytab spec with base64 content
`"aQ==\n"` (valid input for the decoder, which discards the newline) and
path `/k`, `write_keytab_file` writes the byte `0x69`, whose re-encoding
is `"aQ=="` — not the supplied content: encode after decode is not the
identity on every supplied content. -/
theorem write_keytab_file_roundtrip_fails :
    ((write_keytab_file (some [⟨some "aQ==\n", some "/k", none, none, none, none⟩])
        emptyFS).2 "/k" = some [105])
    ∧ String.mk (b64encode [105]) ≠ "aQ==\n" := by decide

/-- C6 (amended): for every keytab spec whose non-empty content is the
canonical base64 encoding of some byte sequence and whose target path is
non-empty, `write_keytab_file` produces a file at the path whose bytes,
re-encoded to base64, equal the supplied content. -/
theorem write_keytab_file_roundtrip (B : List Nat) (hB : B ≠ [])
    (hb : ∀ b ∈ B, b < 256) (path : String) (hp : 0 < path.length) (fs : FS)
    (owner oa grp ga : Option String) :
    ∃ bs, (write_keytab_file (some [⟨some (String.mk (b64encode B)), some path,
        owner, oa, grp, ga⟩]) fs).2 path = some bs
      ∧ String.mk (b64encode bs) = String.mk (b64encode B) := by
  refine ⟨B, ?_, rfl⟩
  unfold write_keytab_file processKeytabItems
  dsimp only
  have hlen : 0 < (String.mk (b64encode B)).length := by
    cases hE : b64encode B with
    | nil => exact absurd hE (b64encode_ne_nil hB)
    | cons a l => exact Nat.succ_pos _
  rw [if_pos hlen, if_pos hp]
  have hd : b64decode (String.mk (b64encode B)).data = .ok B := b64decode_b64encode B hb
  rw [hd]
  simp [processKeytabItems, set_file_access, setFile]

/-- C6 (witness): the round-trip theorem at the two bytes `hi` and the
path `/etc/security/k.keytab`. -/
theorem write_keytab_file_roundtrip_witness :
    ∃ bs, (write_keytab_file (some [⟨some (String.mk (b64encode [104, 105])),
        some "/etc/security/k.keytab", none, none, none, none⟩])
        emptyFS).2 "/etc/security/k.keytab" = some bs
      ∧ String.mk (b64encode bs) = String.mk (b64encode [104, 105]) :=
  write_keytab_file_roundtrip [104, 105] (by decide) (by decide)
    "/etc/security/k.keytab" (by decide) emptyFS none none none none

set_option maxRecDepth 16384 in
/-- C8 (counterexample): a byte-string (Python 2 `str`, not `unicode`)
argument value of 257 characters is not truncated by
`_get_resource_repr`: the rendering contains the full 257-character value
and no ellipsis at all — only `unicode` values are length-limited. -/
theorem long_plain_str_not_truncated :
    (List.replicate 257 'a') <:+: (getResourceRepr "INFO"
        ⟨"File[x]", [("content", .vstr (String.mk (List.replicate 257 'a')))]⟩).data
    ∧ ¬ ("...".data <:+: (getResourceRepr "INFO"
        ⟨"File[x]", [("content", .vstr (String.mk (List.replicate 257 'a')))]⟩).data) := by
  decide

/-- C8 (amended): a `unicode`-typed argument value longer than
`MESSAGE_MAX_LEN = 256` characters is rendered as the ellipsis `'...'`
(its truncated repr), and the whole resource rendering equals the one
with the value literally replaced by `...`; byte strings (Python 2 `str`)
are rendered in full (see the counterexample). -/
theorem long_unicode_truncated (level x : String) (s : String)
    (h : MESSAGE_MAX_LEN < s.length) :
    renderVal level x (.vunicode s) = "'...'"
    ∧ ∀ (name : String) (pre post : List (String × Value)),
        getResourceRepr level ⟨name, pre ++ (x, Value.vunicode s) :: post⟩
          = getResourceRepr level ⟨name, pre ++ (x, Value.vunicode "...") :: post⟩ := by
  have h1 : renderVal level x (.vunicode s) = "'...'" := by
    unfold renderVal
    dsimp only
    rw [if_pos h]
    rfl
  have h2 : renderVal level x (.vunicode "...") = "'...'" := rfl
  refine ⟨h1, ?_⟩
  intro name pre post
  unfold getResourceRepr
  dsimp only
  rw [List.map_append, List.map_append, List.map_cons, List.map_cons, h1, h2]

set_option maxRecDepth 16384 in
/-- C8 (witness): the truncation theorem at a concrete 257-character
unicode value. -/
theorem long_unicode_truncated_witness :
    renderVal "INFO" "content" (.vunicode (String.mk (List.replicate 257 'a'))) = "'...'" :=
  (long_unicode_truncated "INFO" "content" (String.mk (List.replicate 257 'a'))
    (by decide)).1
